import Mathlib

/-!
Verification development for the Sparta fitness dashboard (`src/app.py`).

The program is a linear pandas pipeline: read a spreadsheet table, coerce
column types, drop unusable rows, filter by time window and category,
compute aggregates, and write appended/deleted tables back.  We embed the
table as a list of association-list rows over a dynamic `Value` type
(mirroring pandas' dynamically typed cells), and each processing step of
`app.py` as a Lean function.  Fallible steps (pandas `KeyError`,
`IndexError`, Python `NameError`) are embedded in `Except String`.

Numeric cells are exact unnormalized fractions (`Frac`): every
constructor used by the pipeline produces a positive denominator, and
none of the source's numeric operations (sum, comparison with zero,
`int()` truncation) needs a normalized representative.
-/

/-- An exact fraction `n / d` modelling a Python int/float cell.  All
fractions built by this development have a positive denominator (1 or a
power of ten). -/
structure Frac where
  n : Int
  d : Nat
deriving Repr, DecidableEq

/-- Fraction of an integer. -/
def intF (n : Int) : Frac := ⟨n, 1⟩

def Frac.add (a b : Frac) : Frac := ⟨a.n * (b.d : Int) + b.n * (a.d : Int), a.d * b.d⟩

/-- Sum of a list of fractions (`Series.sum`). -/
def sumF (l : List Frac) : Frac := l.foldl Frac.add ⟨0, 1⟩

/-- `f > 0` for a fraction with positive denominator. -/
def Frac.pos (f : Frac) : Bool := decide (0 < f.n)

/-- Python `int()` of a fraction: truncation toward zero. -/
def pyInt (f : Frac) : Int := Int.tdiv f.n (f.d : Int)

/-- A pandas cell: `na` is NaN/NaT, `num` models int/float cells as exact
fractions, `date` models a parsed datetime by its calendar components. -/
inductive Value where
  | na : Value
  | str (s : String) : Value
  | num (f : Frac) : Value
  | bool (b : Bool) : Value
  | date (y : Int) (m : Nat) (d : Nat) : Value
deriving Repr, DecidableEq

/-- One table row: an association list from column name to cell value. -/
abbrev Row := List (String × Value)

/-- A pandas DataFrame: column names plus rows (each row keyed by column). -/
structure DF where
  cols : List String
  rows : List Row
deriving Repr, DecidableEq

/-- Cell lookup in a row: value of the first pair with the given key,
`na` when the key is absent (rows of a well-formed frame carry every
column exactly once, in column order). -/
def Row.get : Row → String → Value
  | [], _ => .na
  | (k, v) :: r, c => if k = c then v else Row.get r c

/-- The column names actually present in a row. -/
def rowCols (r : Row) : List String := r.map Prod.fst

/-- Is the value a parsed date? -/
def Value.isDate : Value → Bool
  | .date _ _ _ => true
  | _ => false

/-! ### Structural string helpers

Core `String.trim`, `String.splitOn` and `String.toLower` are defined by
well-founded recursion on string positions; these structurally recursive
equivalents let concrete claims be settled by kernel evaluation. -/

/-- `str.strip()`: drop whitespace on both ends. -/
def strTrim (s : String) : String :=
  ⟨((s.data.dropWhile Char.isWhitespace).reverse.dropWhile Char.isWhitespace).reverse⟩

/-- Lowercase every character (`str.lower()`). -/
def strLower (s : String) : String := ⟨s.data.map Char.toLower⟩

/-- Split a character list at every dash (`s.split("-")` semantics). -/
def splitDash : List Char → List (List Char)
  | [] => [[]]
  | c :: rest =>
    let r := splitDash rest
    if c = '-' then [] :: r
    else
      match r with
      | [] => [[c]]
      | h :: t => (c :: h) :: t

/-- Python `str()` of a cell, as used by `.astype(str)`:
NaN prints as "nan", floats with integral value print with a trailing
".0", booleans capitalize. -/
def fracStr (f : Frac) : String :=
  if f.d = 1 then toString f.n ++ ".0"
  else if f.n % (f.d : Int) = 0 then toString (Int.tdiv f.n (f.d : Int)) ++ ".0"
  else toString f.n ++ "/" ++ toString f.d

def pyStr : Value → String
  | .na => "nan"
  | .str s => s
  | .num f => fracStr f
  | .bool b => if b then "True" else "False"
  | .date y m d => toString y ++ "-" ++ toString m ++ "-" ++ toString d

/-- Python truthiness of a cell (`if latest_comment:`): NaN is truthy,
the empty string is falsy, zero is falsy. -/
def pyTruthy : Value → Bool
  | .na => true
  | .str s => s ≠ ""
  | .num f => f.n ≠ 0
  | .bool b => b
  | .date _ _ _ => true

/-- Numeric value of a coerced cell (after `pd.to_numeric(...).fillna(0)`
every cell of a numeric column is `num`). -/
def vnum : Value → Frac
  | .num f => f
  | _ => ⟨0, 1⟩

/-- Digits of a decimal literal, `none` when empty or a non-digit occurs. -/
def decNat? (cs : List Char) : Option Nat :=
  if cs.isEmpty then none
  else
    cs.foldl
      (fun acc c =>
        match acc with
        | some n => if c.isDigit then some (n * 10 + (c.toNat - 48)) else none
        | none => none)
      (some 0)

/-- Digits of a possibly-empty decimal part: empty reads as 0. -/
def decNatOpt (cs : List Char) : Option Nat :=
  if cs.isEmpty then some 0 else decNat? cs

/-- Split a character list at the first dot. -/
def splitDot : List Char → List Char × Option (List Char)
  | [] => ([], none)
  | c :: rest =>
    if c = '.' then ([], some rest)
    else
      let p := splitDot rest
      (c :: p.1, p.2)

/-- Model of `pd.to_numeric(..., errors='coerce')` on a decimal string
literal: optional sign, digits with at most one dot; anything else is
unparsable (and coerces to NaN). -/
def parseRat (s : String) : Option Frac :=
  let t := strTrim s
  let su : Int × List Char :=
    match t.data with
    | '-' :: rest => (-1, rest)
    | '+' :: rest => (1, rest)
    | cs => (1, cs)
  let p := splitDot su.2
  match p.2 with
  | none => (decNat? p.1).map (fun n => intF (su.1 * (n : Int)))
  | some fp =>
    if p.1.isEmpty && fp.isEmpty then none
    else
      match decNatOpt p.1, decNatOpt fp with
      | some n, some f =>
        some ⟨su.1 * ((n : Int) * (10 : Int) ^ fp.length + (f : Int)), 10 ^ fp.length⟩
      | _, _ => none

/-- Gregorian leap year. -/
def leapYear (y : Nat) : Bool := y % 4 = 0 && (y % 100 ≠ 0 || y % 400 = 0)

def daysInMonth (y m : Nat) : Nat :=
  if m = 2 then (if leapYear y then 29 else 28)
  else if m = 4 || m = 6 || m = 9 || m = 11 then 30
  else 31

/-- Model of `pd.to_datetime(..., errors='coerce')` restricted to
ISO `Y-M-D` inputs, validated by standard calendar rules (month range,
month lengths, leap years); all other strings are unparsable and become
NaT. -/
def parseDate (s : String) : Option (Int × Nat × Nat) :=
  match splitDash s.data with
  | [ys, ms, ds] =>
    match decNat? ys, decNat? ms, decNat? ds with
    | some y, some m, some d =>
      if 1 ≤ m && m ≤ 12 && 1 ≤ d && d ≤ daysInMonth y m then
        some ((y : Int), m, d)
      else none
    | _, _, _ => none
  | _ => none

/-- Chronological key of a parsed date.  For calendar-valid components
(`1 ≤ m ≤ 12`, `1 ≤ d ≤ 31`) this encoding is strictly monotone in
calendar order, so datetime comparisons in the source become integer
comparisons.  Non-date cells sort with key 0. -/
def vkey : Value → Int
  | .date y m d => y * 512 + (m : Int) * 32 + (d : Int)
  | _ => 0

/-- Sort key of a row by its `Date` column (`sort_values("Date")`). -/
def rowKeyD (r : Row) : Int := vkey (Row.get r "Date")

/-- Sort key of a row by its `Date_Only` column. -/
def rowKeyDO (r : Row) : Int := vkey (Row.get r "Date_Only")

/-! ### Column-wise operations (pandas `df[col] = f(df[col])`) -/

/-- Apply `f` to the cells of column `c` inside one row (keys are
unchanged; only cells under key `c` are mapped). -/
def rowMapCol (c : String) (f : Value → Value) : Row → Row
  | [] => []
  | (k, v) :: r => (k, if k = c then f v else v) :: rowMapCol c f r

/-- Overwrite every cell under key `c`. -/
def rowOverwrite (c : String) (v : Value) : Row → Row
  | [] => []
  | (k, w) :: r => (k, if k = c then v else w) :: rowOverwrite c v r

/-- Column assignment `df[c] = series` at row level: overwrite the cell
when the column exists, append it otherwise (pandas adds a new column). -/
def rowSetCol (r : Row) (c : String) (v : Value) : Row :=
  if (rowCols r).contains c then rowOverwrite c v r
  else r ++ [(c, v)]

/-- `if col in df.columns: df[col] = f(df[col])` -/
def mapColIf (t : DF) (c : String) (f : Value → Value) : DF :=
  if t.cols.contains c then ⟨t.cols, t.rows.map (rowMapCol c f)⟩ else t

/-- Row-level effect of folding `mapColIf` over a list of columns with a
fixed per-cell function (used to state the fold as a row map). -/
def rowStageFold (cs : List String) (cols : List String) (f : Value → Value) (r : Row) : Row :=
  cs.foldl (fun r c => if cols.contains c then rowMapCol c f r else r) r

/-! ### Ingestion (`app.py` lines 40-52): read-time raw fix-up -/

/-- The three text-classification columns filled at read time. -/
def textCols : List String := ["Cardio Type", "Comments", "Weight Band"]

/-- `fillna("N/A").astype(str)` on one cell: blanks become the literal
placeholder, everything else is forced to text. -/
def fillV (v : Value) : Value :=
  .str (match v with | .na => "N/A" | w => pyStr w)

/-- Lines 44-46: for each of the three text columns present (by its
un-stripped name — this loop runs before the column-name strip), fill
blanks with "N/A" and force to text. -/
def fixRawTypes (t : DF) : DF :=
  textCols.foldl (fun t c => mapColIf t c fillV) t

/-- Line 48: `df_raw.columns = df_raw.columns.str.strip()`. -/
def stripRow (r : Row) : Row := r.map (fun p => (strTrim p.1, p.2))

def stripCols (t : DF) : DF :=
  ⟨t.cols.map strTrim, t.rows.map stripRow⟩

/-- Is every cell of the row blank? -/
def allNA (r : Row) : Bool := r.all (fun p => p.2 == Value.na)

/-- Line 49: `df_raw = df_raw.dropna(how='all')`. -/
def dropAllBlank (t : DF) : DF :=
  ⟨t.cols, t.rows.filter (fun r => !(allNA r))⟩

/-- The in-memory `df_raw` derived from the stored sheet at read time
(lines 44-49, in source order: fillna loop, strip, dropna). -/
def dfRaw (stored : DF) : DF := dropAllBlank (stripCols (fixRawTypes stored))

/-! ### Normalization (`app.py` lines 55-71) -/

def numCols : List String :=
  ["Pullups", "Pushups", "Squats", "Burpees", "Cardio Min/Reps", "Weight", "Fat_Pct", "Waist_cm"]

def boolCols : List String := ["Abs", "Weights", "Stretched"]

def truthyTokens : List String := ["true", "1", "1.0", "yes", "y", "checked"]

/-- Line 57 per cell: `pd.to_datetime(df["Date"].astype(str).str.strip(),
errors='coerce')`. -/
def dateCoerceV (v : Value) : Value :=
  match parseDate (strTrim (pyStr v)) with
  | some (y, m, d) => .date y m d
  | none => .na

/-- Lines 63-65 per cell: `pd.to_numeric(col, errors='coerce').fillna(0)`:
numbers pass through, booleans read as 0/1, parsable decimal strings are
parsed, everything else coerces to NaN and then fills with 0. -/
def toNumericV : Value → Value
  | .num f => .num f
  | .bool b => .num (intF (if b then 1 else 0))
  | .str s => .num ((parseRat s).getD ⟨0, 1⟩)
  | _ => .num ⟨0, 1⟩

/-- Lines 69-71 per cell: `astype(str).str.lower().isin([...])`. -/
def boolV (v : Value) : Value :=
  .bool (truthyTokens.contains (strLower (pyStr v)))

/-- Line 59: `df["Date_Only"] = df["Date"].dt.date`. -/
def addDateOnly (t : DF) : DF :=
  ⟨if t.cols.contains "Date_Only" then t.cols else t.cols ++ ["Date_Only"],
   t.rows.map (fun r => rowSetCol r "Date_Only" (Row.get r "Date"))⟩

/-- Lines 56-71: parse the date column (a `KeyError` when `Date` is
absent, as `df["Date"]` is unguarded), drop rows whose date failed to
parse, derive `Date_Only`, then coerce each declared numeric and boolean
column that is present. -/
def normalizeDF (raw : DF) : Except String DF :=
  if raw.cols.contains "Date" then
    .ok (boolCols.foldl (fun t c => mapColIf t c boolV)
      (numCols.foldl (fun t c => mapColIf t c toNumericV)
        (addDateOnly
          ⟨raw.cols,
           (raw.rows.map (rowMapCol "Date" dateCoerceV)).filter
             (fun r => !(Row.get r "Date" == Value.na))⟩)))
  else .error "KeyError: Date"

/-! ### Sorting (`sort_values`) -/

/-- Insert a row into an ascending-by-key list, after all rows with key
less than or equal: the stable insertion used to model
`sort_values(ascending=True)`. -/
def insRowK (key : Row → Int) (x : Row) : List Row → List Row
  | [] => [x]
  | y :: ys => if key y ≤ key x then y :: insRowK key x ys else x :: y :: ys

/-- Stable ascending sort by key.  pandas computes a descending
`sort_values` as an ascending argsort followed by reversal (`nargsort`);
we model the argsort as stable, which matches numpy's behavior on the
small arrays this app handles. -/
def sortAscK (key : Row → Int) (l : List Row) : List Row :=
  l.foldl (fun acc x => insRowK key x acc) []

/-- Descending sort: ascending argsort, then reverse (pandas `nargsort`
with `ascending=False`). -/
def sortDescK (key : Row → Int) (l : List Row) : List Row :=
  (sortAscK key l).reverse

/-! ### Latest entry and comment banner (`app.py` lines 74-79) -/

/-- Line 74: `df.sort_values("Date", ascending=False).iloc[0]` — an
`IndexError` on an empty frame. -/
def latestEntryRow (df : DF) : Except String Row :=
  match (sortDescK rowKeyD df.rows).head? with
  | none => .error "IndexError: single positional indexer is out-of-bounds"
  | some r => .ok r

/-- Line 78 condition and banner text: shown when the comment is truthy
and differs from the placeholder. -/
def bannerOf (r : Row) : Option String :=
  let v := Row.get r "Comments"
  if pyTruthy v && !(v == Value.str "N/A") then some (pyStr v) else none

/-- Lines 74-79: pick the latest entry (IndexError on an empty frame),
format its `Date_Only` (a `KeyError` when that column is absent, an
`AttributeError` when the cell is not a date), read its comment (a
`KeyError` when `Comments` is absent), and surface the banner. -/
def commentBanner (df : DF) : Except String (Option String) :=
  match latestEntryRow df with
  | .error e => .error e
  | .ok r =>
    if df.cols.contains "Date_Only" then
      if (Row.get r "Date_Only").isDate then
        if df.cols.contains "Comments" then .ok (bannerOf r)
        else .error "KeyError: Comments"
      else .error "AttributeError: strftime"
    else .error "KeyError: Date_Only"

/-! ### Lifetime totals (`app.py` lines 82-108) -/

/-- Line 86: `int(df[col].sum()) if col in df.columns else 0`. -/
def getSum (df : DF) (c : String) : Int :=
  if df.cols.contains c then pyInt (sumF (df.rows.map (fun r => vnum (Row.get r c))))
  else 0

/-- Line 87: `len(df[df[col] == True]) if col in df.columns else 0`. -/
def getCount (df : DF) (c : String) : Nat :=
  if df.cols.contains c then
    (df.rows.filter (fun r => Row.get r c == Value.bool true)).length
  else 0

/-- Lines 90-93: count rows whose `Cardio Type` differs from the literal
string "None" (only that literal is excluded), 0 when the column is
absent. -/
def getCardioSessions (df : DF) : Nat :=
  if df.cols.contains "Cardio Type" then
    (df.rows.filter (fun r => !(Row.get r "Cardio Type" == Value.str "None"))).length
  else 0

/-- The nine lifetime metrics of section 4 (lines 95-108). -/
structure LifetimeTotals where
  pullups : Int
  squats : Int
  pushups : Int
  burpees : Int
  absSessions : Nat
  weightSessions : Nat
  stretchSessions : Nat
  cardioSessions : Nat
  cardioTotal : Int
deriving Repr, DecidableEq

def lifetimeStats (df : DF) : LifetimeTotals :=
  ⟨getSum df "Pullups", getSum df "Squats", getSum df "Pushups", getSum df "Burpees",
   getCount df "Abs", getCount df "Weights", getCount df "Stretched",
   getCardioSessions df, getSum df "Cardio Min/Reps"⟩

/-! ### Filtering (`app.py` lines 113-155) -/

inductive TimeView where
  | fullHistory
  | lastYear
  | lastMonth
  | lastWeek
deriving Repr, DecidableEq

/-- Line 119 accesses `df["Cardio Type"].unique()` unguarded while
building the category selector: a `KeyError` when the column is absent. -/
def cardioOptionsE (df : DF) : Except String Unit :=
  if df.cols.contains "Cardio Type" then .ok () else .error "KeyError: Cardio Type"

/-- Line 126: inclusive date-range filter on `Date_Only`
(`df[(df["Date_Only"] >= lo) & (df["Date_Only"] <= hi)]`); the column
access is unguarded. -/
def rangeFilterE (df : DF) (lo hi : Int) : Except String DF :=
  if df.cols.contains "Date_Only" then
    .ok ⟨df.cols,
      df.rows.filter (fun r => lo ≤ rowKeyDO r && rowKeyDO r ≤ hi)⟩
  else .error "KeyError: Date_Only"

/-- Lines 128-134: the relative time window.  "Full History" leaves the
frame unchanged; the other three branches evaluate
`today - timedelta(days=…)`, but `timedelta` is never imported (line 4
imports only `date` from `datetime`), so they raise `NameError` before
any comparison happens. -/
def applyTimeView (df : DF) (view : TimeView) (_today : Int) : Except String DF :=
  match view with
  | .fullHistory => .ok df
  | .lastWeek => .error "NameError: name timedelta is not defined"
  | .lastMonth => .error "NameError: name timedelta is not defined"
  | .lastYear => .error "NameError: name timedelta is not defined"

/-- Lines 136-138: category filter, identity for the sentinel "All". -/
def categoryFilterE (df : DF) (sel : String) : Except String DF :=
  if sel = "All" then .ok df
  else if df.cols.contains "Cardio Type" then
    .ok ⟨df.cols, df.rows.filter (fun r => Row.get r "Cardio Type" == Value.str sel)⟩
  else .error "KeyError: Cardio Type"

/-- Unguarded column sum (`int(chart_df[c].sum())`, lines 144-149). -/
def colSumE (df : DF) (c : String) : Except String Int :=
  if df.cols.contains c then
    .ok (pyInt (sumF (df.rows.map (fun r => vnum (Row.get r c)))))
  else .error ("KeyError: " ++ c)

/-- Lines 144-146: period totals over the filtered frame — every column
access is unguarded. -/
def periodTotalsE (df : DF) : Except String (Int × Int × Int) :=
  match colSumE df "Pullups" with
  | .error e => .error e
  | .ok p =>
    match colSumE df "Squats" with
    | .error e => .error e
    | .ok s =>
      match colSumE df "Pushups" with
      | .error e => .error e
      | .ok u => .ok (p, s, u)

/-- Lines 149-151: cardio minutes and session count over the
category-filtered frame, both unguarded. -/
def activityTotalsE (adf : DF) : Except String (Int × Nat) := do
  let v ← colSumE adf "Cardio Min/Reps"
  if adf.cols.contains "Cardio Type" then
    pure (v, (adf.rows.filter (fun r => !(Row.get r "Cardio Type" == Value.str "None"))).length)
  else .error "KeyError: Cardio Type"

/-! ### Trend series (`app.py` lines 162-185) -/

/-- `value > 0` on a cell, as in `chart_df[chart_df["Weight"] > 0]`:
only positive numbers compare true (NaN and non-numbers compare false). -/
def vPos (v : Value) : Bool :=
  match v with
  | .num f => f.pos
  | _ => false

/-- Lines 166/173/180: the trend subset for one metric, in the frame's
existing row order (the source applies no sort); the column access is
unguarded. -/
def trendSeriesE (df : DF) (m : String) : Except String (List Row) :=
  if df.cols.contains m then
    .ok (df.rows.filter (fun r => vPos (Row.get r m)))
  else .error ("KeyError: " ++ m)

/-! ### Mutation path (`app.py` lines 219-239) -/

/-- Reindex a row to a column list, filling missing columns with NaN
(what `pd.concat` does to rows when frames have different columns). -/
def reindexRow (cs : List String) (r : Row) : Row :=
  cs.map (fun c => (c, Row.get r c))

/-- Line 226: `pd.concat([df_raw, new_data], ignore_index=True)` — the
result's columns are the first frame's columns followed by the entry's
new ones; rows are reindexed to that union with NaN fill. -/
def concatDF (t : DF) (e : Row) : DF :=
  let cs := t.cols ++ (rowCols e).filter (fun c => !(t.cols.contains c))
  ⟨cs, t.rows.map (reindexRow cs) ++ [reindexRow cs e]⟩

/-- Line 236: `df_raw.iloc[:-1]` — drop exactly the last row in
insertion order. -/
def deleteLastDF (t : DF) : DF := ⟨t.cols, t.rows.dropLast⟩

/-- Lines 220-225: the form entry appended on submit, with its fixed
column set in source order. -/
def formEntry (fdate : String) (fpull fpush fsquat fburp : Frac) (fabs fweights : Bool)
    (fctype : String) (fcmin : Frac) (fstretch : Bool) (fwgt ffat fwaist : Frac)
    (fcomm : String) : Row :=
  [("Date", .str fdate), ("Pullups", .num fpull), ("Pushups", .num fpush),
   ("Squats", .num fsquat), ("Burpees", .num fburp), ("Abs", .bool fabs),
   ("Weights", .bool fweights), ("Cardio Type", .str fctype),
   ("Cardio Min/Reps", .num fcmin), ("Stretched", .bool fstretch),
   ("Weight", .num fwgt), ("Fat_Pct", .num ffat), ("Waist_cm", .num fwaist),
   ("Comments", .str fcomm)]

/-- The table written on append (line 227): the submit handler extends
the in-memory `df_raw` — the stored table as transformed at read time —
not the stored table itself. -/
def writtenOnAppend (stored : DF) (e : Row) : DF := concatDF (dfRaw stored) e

/-- The table written on delete (lines 235-237), `none` when the delete
is skipped because the in-memory table is empty. -/
def writtenOnDelete (stored : DF) : Option DF :=
  if (dfRaw stored).rows.isEmpty then none
  else some (deleteLastDF (dfRaw stored))

/-! ### Whole-interaction control flow -/

/-- The three body-progress subsets of section 6 (lines 162-185). -/
structure TrendData where
  weightSeries : List Row
  fatSeries : List Row
  waistSeries : List Row
deriving Repr, DecidableEq

structure SessionOut where
  banner : Option String
  lifetime : Option LifetimeTotals
  period : Int × Int × Int
  activity : Int × Nat
  trends : Option TrendData
  history : List Row
deriving Repr, DecidableEq

instance {ε α : Type} [DecidableEq ε] [DecidableEq α] : DecidableEq (Except ε α)
  | .ok a, .ok b =>
    if h : a = b then isTrue (by rw [h]) else isFalse (by intro he; cases he; exact h rfl)
  | .error a, .error b =>
    if h : a = b then isTrue (by rw [h]) else isFalse (by intro he; cases he; exact h rfl)
  | .ok _, .error _ => isFalse (by intro he; cases he)
  | .error _, .ok _ => isFalse (by intro he; cases he)

/-- The read/derive part of one script run behind the password gate,
mirroring the line order of `app.py` (sections 2-6 plus the history
table).  When the raw table is empty, the processing and filtering
sections are skipped entirely, and line 162 then evaluates
`chart_df.empty` on a name that was never assigned: a `NameError`. -/
def runGated (stored : DF) (view : TimeView) (selType : String)
    (lo hi today : Int) : Except String SessionOut :=
  let raw := dfRaw stored
  if raw.rows.isEmpty then .error "NameError: name chart_df is not defined"
  else do
    let df ← normalizeDF raw
    let banner ← commentBanner df
    let life := if df.rows.isEmpty then none else some (lifetimeStats df)
    let _u ← cardioOptionsE df
    let chart0 ← rangeFilterE df lo hi
    let chart ← applyTimeView chart0 view today
    let adf ← categoryFilterE chart selType
    let per ← periodTotalsE chart
    let act ← activityTotalsE adf
    let tr ←
      if chart.rows.isEmpty then pure none
      else do
        let w ← trendSeriesE chart "Weight"
        let f ← trendSeriesE chart "Fat_Pct"
        let wa ← trendSeriesE chart "Waist_cm"
        pure (some ⟨w, f, wa⟩)
    pure ⟨banner, life, per, act, tr, sortDescK rowKeyDO adf.rows⟩

/-! ### Password gate (`app.py` lines 11-33) -/

/-- The session-scoped authentication state: `none` before any attempt,
`some b` after `password_entered` stored the comparison result. -/
structure SessState where
  passwordCorrect : Option Bool
deriving Repr, DecidableEq

/-- Lines 21-30: `check_password` returns true only when a prior attempt
succeeded; with no attempt or a failed attempt it renders the prompt and
returns false. -/
def check_password (s : SessState) : Bool :=
  match s.passwordCorrect with
  | none => false
  | some b => b

inductive Eff where
  | sheetRead
  | sheetWrite (t : DF)
  | render (s : String)
deriving Repr, DecidableEq

/-- Externally visible effects of one script run.  Everything below the
gate — the `st.connection`/`conn.read` at line 41, both `conn.update`
writes, and all data rendering — sits inside `if check_password():`
(line 33); a run raising midway (an `Except.error` in `runGated`) never
reaches the write handlers. -/
def scriptEffects (s : SessState) (stored : DF) (view : TimeView)
    (selType : String) (lo hi today : Int)
    (submitted : Option Row) (deleteClicked : Bool) : List Eff :=
  if check_password s then
    Eff.sheetRead ::
      (match runGated stored view selType lo hi today with
       | .error e => [Eff.render e]
       | .ok _ =>
         (match submitted with
          | some e => [Eff.sheetWrite (writtenOnAppend stored e)]
          | none => []) ++
         (match writtenOnDelete stored with
          | some t => if deleteClicked then [Eff.sheetWrite t] else []
          | none => []))
  else []

/-! ### Concrete tables used by the claim theorems -/

/-- Unwrap a pipeline result, defaulting to the empty frame. -/
def okDF (e : Except String DF) : DF :=
  match e with
  | .ok d => d
  | .error _ => ⟨[], []⟩

/-- A stored table whose only row has an unparsable date. -/
def c1badDates : DF :=
  ⟨["Date", "Comments"], [[("Date", .str "bad"), ("Comments", .na)]]⟩

/-- A healthy stored table used to exercise the filter-to-zero-rows path. -/
def c1good : DF :=
  ⟨["Date", "Pullups", "Squats", "Pushups", "Cardio Type", "Cardio Min/Reps", "Comments"],
   [[("Date", .str "2024-01-05"), ("Pullups", .str "4"), ("Squats", .str "5"),
     ("Pushups", .str "6"), ("Cardio Type", .str "Run"), ("Cardio Min/Reps", .str "30"),
     ("Comments", .str "hi")]]⟩

/-- The three entry dates of the spec §8 window-composition scenario. -/
def c2stored : DF :=
  ⟨["Date", "Comments"],
   [[("Date", .str "2023-01-01"), ("Comments", .na)],
    [("Date", .str "2024-06-01"), ("Comments", .na)],
    [("Date", .str "2025-01-01"), ("Comments", .na)]]⟩

def c2df : DF := okDF (normalizeDF (dfRaw c2stored))

/-- "today" = 2025-01-10 of the §8 scenario, as a chronological key. -/
def c2today : Int := vkey (Value.date 2025 1 10)

/-- The spec §8 concrete-scenario raw table. -/
def c3stored : DF :=
  ⟨["Date", "Pullups", "Cardio Type", "Cardio Min/Reps"],
   [[("Date", .str "2024-01-01"), ("Pullups", .str "5"), ("Cardio Type", .na),
     ("Cardio Min/Reps", .str "10")],
    [("Date", .str "bad"), ("Pullups", .str "3"), ("Cardio Type", .na),
     ("Cardio Min/Reps", .na)],
    [("Date", .str "2024-01-02"), ("Pullups", .str "7"), ("Cardio Type", .str "Run"),
     ("Cardio Min/Reps", .str "20")]]⟩

def c3df : DF := okDF (normalizeDF (dfRaw c3stored))

/-- A one-column raw table: the appended form entry brings 13 new columns. -/
def c4t0 : DF := ⟨["Date"], [[("Date", .str "2024-01-01")]]⟩

def c4e0 : Row :=
  formEntry "2024-01-02" (intF 5) (intF 0) (intF 0) (intF 0) false false "None"
    (intF 0) false (intF 0) (intF 0) (intF 0) ""

/-- A table/entry pair whose columns line up (the standard situation). -/
def c4t1 : DF := ⟨["Date", "Pullups"], [[("Date", .str "2024-01-01"), ("Pullups", .str "5")]]⟩

def c4e1 : Row := [("Date", .str "2024-01-02"), ("Pullups", .num (intF 3))]

/-- A stored table with one fully-blank row and a `Cardio Type` column. -/
def c5stored : DF :=
  ⟨["Date", "Pullups", "Cardio Type"],
   [[("Date", .str "2024-01-01"), ("Pullups", .str "5"), ("Cardio Type", .str "Run")],
    [("Date", .na), ("Pullups", .na), ("Cardio Type", .na)]]⟩

def c5e : Row := [("Date", .str "2024-02-02"), ("Pullups", .num (intF 1)), ("Cardio Type", .str "None")]

/-- A normalized table with no `Squats` column. -/
def c6stored : DF :=
  ⟨["Date", "Pullups", "Pushups"],
   [[("Date", .str "2024-01-01"), ("Pullups", .str "5"), ("Pushups", .str "2")]]⟩

def c6df : DF := okDF (normalizeDF (dfRaw c6stored))

/-- A stored table whose chronologically latest row carries a literal
empty-string comment (an empty cell would fill to "N/A"; an empty string
survives `astype(str)` unchanged). -/
def c7cstored : DF :=
  ⟨["Date", "Comments"],
   [[("Date", .str "2024-01-01"), ("Comments", .str "note")],
    [("Date", .str "2024-01-02"), ("Comments", .str "")]]⟩

def c7cdf : DF := okDF (normalizeDF (dfRaw c7cstored))

/-- A latest-entry witness table with a tie on the maximum date. -/
def c7wdf : DF :=
  ⟨["Date", "Date_Only", "Comments"],
   [[("Date", .date 2024 1 5), ("Date_Only", .date 2024 1 5), ("Comments", .str "old")],
    [("Date", .date 2024 1 9), ("Date_Only", .date 2024 1 9), ("Comments", .str "mid")],
    [("Date", .date 2024 1 9), ("Date_Only", .date 2024 1 9), ("Comments", .str "hello")]]⟩

/-- A chart subset that is not in date order. -/
def c8rB : Row := [("Date_Only", .date 2024 2 1), ("Weight", .num (intF 80))]

def c8rA : Row := [("Date_Only", .date 2024 1 1), ("Weight", .num (intF 70))]

def c8df : DF := ⟨["Date_Only", "Weight"], [c8rB, c8rA]⟩

/-- A raw table mixing parsable (padded), empty and blank date cells. -/
def c9raw : DF :=
  ⟨["Date", "Pullups"],
   [[("Date", .str " 2024-03-05 "), ("Pullups", .str "4")],
    [("Date", .str ""), ("Pullups", .str "9")],
    [("Date", .na), ("Pullups", .str "1")]]⟩

def c9df : DF := okDF (normalizeDF c9raw)

/-- A stored table with none of the three text columns and one
fully-blank row (exercises the blank-row drop). -/
def c5b : DF := ⟨["Date"], [[("Date", .str "2024-01-01")], [("Date", .na)]]⟩

/-- Does the row's trimmed `Date` text parse as a date? (The row-drop
predicate of the normalization stage.) -/
def parsableRow (r : Row) : Bool :=
  (parseDate (strTrim (pyStr (Row.get r "Date")))).isSome

/-- The parsed datetime stamped into a row's `Date` cell. -/
def stampVal (r : Row) : Value := dateCoerceV (Row.get r "Date")

/-! ## Claim theorems -/

/-- C1: the claim says every Query & Aggregation operation short-circuits
to its identity on zero rows and never raises.  The code violates it: on
an empty raw table the script skips all assignments and then line 162
evaluates the undefined name `chart_df` (NameError); when every date
fails to parse, line 74 indexes row 0 of an empty frame (IndexError).
Only the third zero-row case — a filter that removes every row of a
healthy table — behaves as claimed (identity totals, no chart, no
error). -/
theorem c1_zero_rows_crash :
    runGated ⟨[], []⟩ .fullHistory "All" 0 2000000 0
        = .error "NameError: name chart_df is not defined" ∧
    runGated c1badDates .fullHistory "All" 0 2000000 0
        = .error "IndexError: single positional indexer is out-of-bounds" ∧
    runGated c1good .fullHistory "All" 0 0 0
        = .ok ⟨some "hi", some ⟨4, 5, 6, 0, 0, 0, 0, 1, 30⟩, (0, 0, 0), (0, 0), none, []⟩ := by
  refine ⟨by decide, by decide, by decide⟩

/-- C2: the claim describes the intended relative-window filter
(date ≥ today − 7/30/365 days, composed after the range filter).  The
code cannot perform it: `timedelta` is never imported (line 4 imports
only `date`), so on the §8 table (entries 2023-01-01, 2024-06-01,
2025-01-01; today = 2025-01-10) every non-"Full History" window raises
`NameError` instead of filtering; only "Full History" (AllTime) behaves
as claimed, keeping all three rows. -/
theorem c2_window_namerror :
    applyTimeView c2df .lastWeek c2today = .error "NameError: name timedelta is not defined" ∧
    applyTimeView c2df .lastMonth c2today = .error "NameError: name timedelta is not defined" ∧
    applyTimeView c2df .lastYear c2today = .error "NameError: name timedelta is not defined" ∧
    applyTimeView c2df .fullHistory c2today = .ok c2df ∧
    c2df.rows.length = 3 := by
  refine ⟨by decide, by decide, by decide, by decide, by decide⟩

/-- C3 counterexample: on the spec §8 concrete scenario the lifetime
cardio-session count is 2, not 1 as claimed — `get_cardio_sessions`
excludes only the literal "None", so the blank-type row (whose cell was
filled to "N/A" at read time) is counted alongside the "Run" row. -/
theorem c3_sessions_not_one :
    getCardioSessions c3df = 2 ∧ getCardioSessions c3df ≠ 1 := by
  refine ⟨by decide, by decide⟩

/-- C3 (amended): on the concrete three-row raw input, normalization
keeps exactly 2 rows (the "bad"-date row is dropped), the lifetime
pullup total is 12, and the lifetime cardio session count is 2: both the
"Run" row and the blank-type row (coerced to "N/A") are counted, because
the code's exclusion set is exactly the literal string "None". -/
theorem c3_concrete_scenario :
    c3df.rows.length = 2 ∧ getSum c3df "Pullups" = 12 ∧ getCardioSessions c3df = 2 := by
  refine ⟨by decide, by decide, by decide⟩

/-- C4 counterexample: with a raw table holding only a `Date` column and
the standard 14-column form entry, `pd.concat` widens the table with the
entry's 13 new columns (blank-filled in the old row), and deleting the
last row keeps the widened shape — the result differs from the original
table, and even its surviving row differs from the original row. -/
theorem c4_roundtrip_new_columns :
    deleteLastDF (concatDF c4t0 c4e0) ≠ c4t0 ∧
    (deleteLastDF (concatDF c4t0 c4e0)).rows ≠ c4t0.rows := by
  refine ⟨by decide, by decide⟩

/-- C5 counterexample: a stored table with a `Cardio Type` column and a
fully-blank second row.  The claim says every fully-blank row is removed
from the store on a write; instead the read-time `fillna` runs before
`dropna(how='all')`, so the blank row survives (with "N/A" in the text
column) and is written back on append. -/
theorem c5_blank_row_persisted :
    (writtenOnAppend c5stored c5e).rows.length = 3 ∧
    (writtenOnAppend c5stored c5e).rows.get? 1
      = some [("Date", Value.na), ("Pullups", Value.na), ("Cardio Type", Value.str "N/A")] := by
  refine ⟨by decide, by decide⟩

/-- C6 counterexample: a normalized table without a `Squats` column.
The claim says every §4.2 aggregate degrades to its default; instead the
period totals of line 145 access `chart_df["Squats"]` unguarded and
raise `KeyError`, while the guarded lifetime helper indeed degrades to
0 on the same frame. -/
theorem c6_period_totals_keyerror :
    periodTotalsE c6df = .error "KeyError: Squats" ∧ getSum c6df "Squats" = 0 := by
  refine ⟨by decide, by decide⟩

/-- C7 counterexample: when the chronologically latest row carries a
literal empty-string comment, the banner is suppressed by the
truthiness test `if latest_comment` even though the comment differs
from the placeholder "N/A" — against the claim that the banner is shown
exactly when the comment is not "N/A". -/
theorem c7_empty_comment_no_banner :
    latestEntryRow c7cdf
      = .ok [("Date", Value.date 2024 1 2), ("Comments", Value.str ""),
             ("Date_Only", Value.date 2024 1 2)] ∧
    commentBanner c7cdf = .ok none ∧
    Value.str "" ≠ Value.str "N/A" := by
  refine ⟨by decide, by decide, by decide⟩

/-- C8 counterexample: a two-row chart subset listed out of date order.
The trend series keeps the frame's row order — the source applies no
sort — so the returned points are not ordered by date ascending. -/
theorem c8_series_not_date_sorted :
    trendSeriesE c8df "Weight" = .ok [c8rB, c8rA] ∧
    ¬ List.Pairwise (fun a b => rowKeyDO a ≤ rowKeyDO b) [c8rB, c8rA] := by
  refine ⟨by decide, by decide⟩

/-! ## Supporting lemmas on rows and column maps -/

theorem get_cons_self (k : String) (v : Value) (r : Row) : Row.get ((k, v) :: r) k = v := by
  simp [Row.get]

theorem get_cons_ne (k c : String) (v : Value) (r : Row) (h : k ≠ c) :
    Row.get ((k, v) :: r) c = Row.get r c := by
  simp [Row.get, h]

theorem get_rowMapCol_other (cm c : String) (f : Value → Value) (r : Row) (h : cm ≠ c) :
    Row.get (rowMapCol cm f r) c = Row.get r c := by
  induction r with
  | nil => rfl
  | cons p r ih =>
    obtain ⟨k, v⟩ := p
    by_cases hc : k = c
    · subst hc
      have hk : ¬(k = cm) := fun he => h (he.symm.trans rfl)
      simp [rowMapCol, Row.get, hk]
    · simp [rowMapCol, Row.get, hc, ih]

theorem get_rowMapCol_self (c : String) (f : Value → Value) (r : Row)
    (h : c ∈ rowCols r) : Row.get (rowMapCol c f r) c = f (Row.get r c) := by
  induction r with
  | nil => cases h
  | cons p r ih =>
    obtain ⟨k, v⟩ := p
    by_cases hk : k = c
    · subst hk
      simp [rowMapCol, Row.get]
    · have hm : c ∈ rowCols r := by
        simp only [rowCols, List.map_cons, List.mem_cons] at h
        rcases h with h | h
        · exact absurd h.symm hk
        · simpa [rowCols] using h
      simp [rowMapCol, Row.get, hk, ih hm]

theorem rowCols_rowMapCol (c : String) (f : Value → Value) (r : Row) :
    rowCols (rowMapCol c f r) = rowCols r := by
  induction r with
  | nil => rfl
  | cons p r ih =>
    obtain ⟨k, v⟩ := p
    simp [rowMapCol, rowCols] at ih ⊢
    exact ih

theorem get_append_single_ne (k c : String) (v : Value) (r : Row) (h : k ≠ c) :
    Row.get (r ++ [(k, v)]) c = Row.get r c := by
  induction r with
  | nil => simp [Row.get, h]
  | cons p r ih =>
    obtain ⟨k2, w⟩ := p
    by_cases hc : k2 = c
    · simp [Row.get, hc]
    · simp [Row.get, hc, ih]

theorem get_append_single_self (c : String) (v : Value) (r : Row)
    (h : (rowCols r).contains c = false) : Row.get (r ++ [(c, v)]) c = v := by
  induction r with
  | nil => simp [Row.get]
  | cons p r ih =>
    obtain ⟨k, w⟩ := p
    simp only [rowCols, List.map_cons, List.contains_cons, Bool.or_eq_false_iff] at h
    have hk : ¬(k = c) := by
      intro he
      rw [he] at h
      simp at h
    simp [Row.get, hk]
    exact ih h.2

theorem get_rowOverwrite_self (c : String) (v : Value) (r : Row)
    (h : (rowCols r).contains c = true) : Row.get (rowOverwrite c v r) c = v := by
  induction r with
  | nil => simp [rowCols] at h
  | cons p r ih =>
    obtain ⟨k, w⟩ := p
    by_cases hk : k = c
    · simp [rowOverwrite, Row.get, hk]
    · simp only [rowCols, List.map_cons, List.contains_cons] at h
      have h2 : (rowCols r).contains c = true := by
        rcases Bool.or_eq_true_iff.mp h with h | h
        · exact absurd (show c = k by simpa using h).symm hk
        · exact h
      simp [rowOverwrite, Row.get, hk, ih h2]

theorem get_rowSetCol_self (r : Row) (c : String) (v : Value) :
    Row.get (rowSetCol r c v) c = v := by
  unfold rowSetCol
  by_cases h : (rowCols r).contains c = true
  · rw [if_pos h]
    exact get_rowOverwrite_self c v r h
  · rw [if_neg h]
    exact get_append_single_self c v r (by simpa using h)

theorem get_rowOverwrite_other (cm c : String) (v : Value) (r : Row) (h : cm ≠ c) :
    Row.get (rowOverwrite cm v r) c = Row.get r c := by
  induction r with
  | nil => rfl
  | cons p r ih =>
    obtain ⟨k, w⟩ := p
    by_cases hc : k = c
    · subst hc
      have hk : ¬(k = cm) := fun he => h (by rw [he])
      simp [rowOverwrite, Row.get, hk]
    · simp [rowOverwrite, Row.get, hc, ih]

theorem get_rowSetCol_other (r : Row) (cm c : String) (v : Value) (h : cm ≠ c) :
    Row.get (rowSetCol r cm v) c = Row.get r c := by
  unfold rowSetCol
  by_cases hc : (rowCols r).contains cm = true
  · rw [if_pos hc]
    exact get_rowOverwrite_other cm c v r h
  · rw [if_neg hc]
    exact get_append_single_ne cm c v r h

/-! ### The column-stage fold as a row map -/

theorem stageFold_spec (cs : List String) (f : Value → Value) (t : DF) :
    cs.foldl (fun t c => mapColIf t c f) t
      = ⟨t.cols, t.rows.map (rowStageFold cs t.cols f)⟩ := by
  induction cs generalizing t with
  | nil =>
    show t = ⟨t.cols, t.rows.map (fun r => r)⟩
    cases t with
    | mk cols rows => simp
  | cons c cs ih =>
    show (cs.foldl (fun t c => mapColIf t c f) (mapColIf t c f)) = _
    by_cases h : t.cols.contains c = true
    · have h1 : mapColIf t c f = ⟨t.cols, t.rows.map (rowMapCol c f)⟩ := by
        simp only [mapColIf, if_pos h]
      rw [h1, ih]
      simp only [List.map_map]
      have hm : c ∈ t.cols := by simpa using h
      have h2 : (rowStageFold cs t.cols f ∘ rowMapCol c f) = rowStageFold (c :: cs) t.cols f := by
        funext r
        simp [rowStageFold, hm]
      rw [h2]
    · have h1 : mapColIf t c f = t := by
        simp only [mapColIf, if_neg h]
      rw [h1, ih]
      have hm : c ∉ t.cols := by simpa using h
      have h2 : rowStageFold cs t.cols f = rowStageFold (c :: cs) t.cols f := by
        funext r
        simp [rowStageFold, hm]
      rw [h2]

theorem get_rowStageFold_notmem (cs : List String) (cols : List String) (f : Value → Value)
    (c : String) (r : Row) (h : c ∉ cs) :
    Row.get (rowStageFold cs cols f r) c = Row.get r c := by
  induction cs generalizing r with
  | nil => rfl
  | cons c2 cs ih =>
    have hne : c2 ≠ c := fun he => h (by rw [he]; exact List.mem_cons_self _ _)
    have htl : c ∉ cs := fun hm => h (List.mem_cons_of_mem _ hm)
    show Row.get (rowStageFold cs cols f (if cols.contains c2 then rowMapCol c2 f r else r)) c
        = Row.get r c
    by_cases hc : cols.contains c2
    · simp only [hc, if_pos]
      rw [ih (rowMapCol c2 f r) htl, get_rowMapCol_other c2 c f r hne]
    · simp only [hc, if_neg, Bool.false_eq_true, not_false_iff]
      exact ih r htl

/-! ### C4: append/delete round trip -/

/-- Rows carry exactly the table's columns, in order (the pandas frame
invariant). -/
abbrev DF.Aligned (t : DF) : Prop := ∀ r ∈ t.rows, rowCols r = t.cols

theorem reindex_cons_ne (k : String) (v : Value) (r : Row) (cs : List String)
    (hk : k ∉ cs) :
    cs.map (fun c => (c, Row.get ((k, v) :: r) c)) = reindexRow cs r := by
  induction cs with
  | nil => rfl
  | cons c cs ih =>
    have hne : k ≠ c := fun he => hk (by rw [he]; exact List.mem_cons_self _ _)
    have htl : k ∉ cs := fun hm => hk (List.mem_cons_of_mem _ hm)
    show (c, Row.get ((k, v) :: r) c) :: cs.map (fun c => (c, Row.get ((k, v) :: r) c))
        = (c, Row.get r c) :: cs.map (fun c => (c, Row.get r c))
    rw [get_cons_ne k c v r hne, ih htl]
    rfl

theorem reindexRow_self (r : Row) (hnd : (rowCols r).Nodup) :
    reindexRow (rowCols r) r = r := by
  induction r with
  | nil => rfl
  | cons p r ih =>
    obtain ⟨k, v⟩ := p
    simp only [rowCols, List.map_cons, List.nodup_cons] at hnd
    show (k, Row.get ((k, v) :: r) k) :: (rowCols r).map (fun c => (c, Row.get ((k, v) :: r) c))
        = (k, v) :: r
    rw [get_cons_self, reindex_cons_ne k v r (rowCols r) hnd.1]
    rw [show reindexRow (rowCols r) r = r from ih hnd.2]

theorem map_reindex_aligned (rows : List Row) (cs : List String)
    (hA : ∀ r ∈ rows, rowCols r = cs) (hnd : cs.Nodup) :
    rows.map (reindexRow cs) = rows := by
  induction rows with
  | nil => rfl
  | cons r rows ih =>
    have h1 : rowCols r = cs := hA r (List.mem_cons_self _ _)
    have hr : reindexRow cs r = r := by
      rw [← h1]
      exact reindexRow_self r (by rw [h1]; exact hnd)
    rw [List.map_cons, hr, ih (fun x hx => hA x (List.mem_cons_of_mem _ hx))]

theorem filter_bnot_all (l : List String) (p : String → Bool)
    (h : ∀ a ∈ l, p a = true) : l.filter (fun a => !(p a)) = [] := by
  induction l with
  | nil => rfl
  | cons a l ih =>
    have ha : p a = true := h a (List.mem_cons_self _ _)
    simp [List.filter, ha, ih (fun x hx => h x (List.mem_cons_of_mem _ hx))]

/-- C4 (amended): when every column of the new entry already appears
among the raw table's columns — as with the standard sheet schema — the
round trip is exact: `delete_most_recent(append(table, e)) = table`,
row for row with order preserved.  (The counterexample shows the general
claim fails when the entry brings new columns: `pd.concat` widens the
table and the widened shape survives the delete.) -/
theorem c4_append_delete_roundtrip (t : DF) (e : Row) (hA : DF.Aligned t)
    (hnd : t.cols.Nodup) (hsub : ∀ c ∈ rowCols e, t.cols.contains c = true) :
    deleteLastDF (concatDF t e) = t := by
  have hfil : (rowCols e).filter (fun c => !(t.cols.contains c)) = [] :=
    filter_bnot_all (rowCols e) (fun c => t.cols.contains c) hsub
  unfold concatDF deleteLastDF
  simp only [hfil, List.append_nil]
  rw [List.dropLast_concat]
  rw [map_reindex_aligned t.rows t.cols hA hnd]

/-- C4 witness: the amended round trip evaluated on a concrete aligned
table and a matching-schema entry. -/
theorem c4_roundtrip_witness :
    DF.Aligned c4t1 ∧ c4t1.cols.Nodup ∧
    (∀ c ∈ rowCols c4e1, c4t1.cols.contains c = true) ∧
    deleteLastDF (concatDF c4t1 c4e1) = c4t1 :=
  ⟨by decide, by decide, by decide,
   c4_append_delete_roundtrip c4t1 c4e1 (by decide) (by decide) (by decide)⟩

/-! ### C5: what the write paths persist -/

theorem rowCols_rowStageFold (cs cols : List String) (f : Value → Value) (r : Row) :
    rowCols (rowStageFold cs cols f r) = rowCols r := by
  induction cs generalizing r with
  | nil => rfl
  | cons c cs ih =>
    show rowCols (rowStageFold cs cols f (if cols.contains c then rowMapCol c f r else r))
        = rowCols r
    by_cases h : cols.contains c = true
    · rw [if_pos h, ih (rowMapCol c f r), rowCols_rowMapCol]
    · rw [if_neg h, ih r]

theorem get_rowStageFold_self (cs cols : List String) (f : Value → Value) (c : String)
    (r : Row) (hnd : cs.Nodup) (hc : c ∈ cs) (hcol : cols.contains c = true)
    (hrow : c ∈ rowCols r) :
    Row.get (rowStageFold cs cols f r) c = f (Row.get r c) := by
  induction cs generalizing r with
  | nil => cases hc
  | cons c2 cs ih =>
    rw [List.nodup_cons] at hnd
    show Row.get (rowStageFold cs cols f (if cols.contains c2 then rowMapCol c2 f r else r)) c
        = f (Row.get r c)
    by_cases he : c2 = c
    · subst he
      rw [if_pos hcol]
      rw [get_rowStageFold_notmem cs cols f c2 (rowMapCol c2 f r) hnd.1]
      exact get_rowMapCol_self c2 f r hrow
    · have hc2 : c ∈ cs := by
        rcases hc with _ | h
        · exact absurd rfl he
        · assumption
      by_cases h : cols.contains c2 = true
      · rw [if_pos h]
        have hrow2 : c ∈ rowCols (rowMapCol c2 f r) := by
          rw [rowCols_rowMapCol]; exact hrow
        rw [ih (rowMapCol c2 f r) hnd.2 hc2 hrow2, get_rowMapCol_other c2 c f r he]
      · rw [if_neg h]
        exact ih r hnd.2 hc2 hrow

theorem rowStageFold_id (cs cols : List String) (f : Value → Value) (r : Row)
    (h : ∀ c ∈ cs, cols.contains c = false) :
    rowStageFold cs cols f r = r := by
  induction cs with
  | nil => rfl
  | cons c cs ih =>
    show rowStageFold cs cols f (if cols.contains c then rowMapCol c f r else r) = r
    have hc : cols.contains c = false := h c (List.mem_cons_self _ _)
    rw [if_neg (by rw [hc]; exact Bool.false_ne_true),
      ih (fun x hx => h x (List.mem_cons_of_mem _ hx))]

theorem allNA_stripRow (r : Row) : allNA (stripRow r) = allNA r := by
  induction r with
  | nil => rfl
  | cons p r ih =>
    obtain ⟨k, v⟩ := p
    show ((v == Value.na) && allNA (stripRow r)) = ((v == Value.na) && allNA r)
    rw [show allNA (stripRow r) = allNA r from ih]

theorem allNA_false_of_get (r : Row) (c : String) (hm : c ∈ rowCols r)
    (hv : Row.get r c ≠ Value.na) : allNA r = false := by
  induction r with
  | nil => cases hm
  | cons p r ih =>
    obtain ⟨k, v⟩ := p
    by_cases hk : k = c
    · subst hk
      rw [get_cons_self] at hv
      show ((v == Value.na) && allNA r) = false
      rw [beq_eq_false_iff_ne.mpr hv, Bool.false_and]
    · have hm2 : c ∈ rowCols r := by
        rcases hm with _ | h
        · exact absurd rfl hk
        · assumption
      rw [get_cons_ne k c v r hk] at hv
      show ((v == Value.na) && allNA r) = false
      rw [ih hm2 hv, Bool.and_false]

theorem filter_all_true {α : Type} (l : List α) (p : α → Bool)
    (h : ∀ x ∈ l, p x = true) : l.filter p = l := by
  induction l with
  | nil => rfl
  | cons a l ih =>
    simp [List.filter, h a (List.mem_cons_self _ _),
      ih (fun x hx => h x (List.mem_cons_of_mem _ hx))]

theorem filter_map_comm {α β : Type} (l : List α) (g : α → β) (p : β → Bool) :
    (l.map g).filter p = (l.filter (fun x => p (g x))).map g := by
  induction l with
  | nil => rfl
  | cons a l ih =>
    by_cases h : p (g a) = true <;> simp [List.filter, h, ih]

theorem map_id_on {α : Type} (l : List α) (f : α → α) (h : ∀ x ∈ l, f x = x) :
    l.map f = l := by
  induction l with
  | nil => rfl
  | cons a l ih =>
    rw [List.map_cons, h a (List.mem_cons_self _ _),
      ih (fun x hx => h x (List.mem_cons_of_mem _ hx))]

/-- C5 (amended): the append and delete write paths persist the
read-time-transformed `df_raw`, not the stored table: an append writes
the transformed table plus one row; every blank cell of a present text
column ("Cardio Type", "Comments", "Weight Band") has been rewritten to
the literal "N/A"; and because that fill runs before
`dropna(how='all')`, a fully-blank stored row is removed only when none
of the three text columns is present — when one is present (with
aligned rows), no row at all is dropped at read time. -/
theorem c5_write_paths_persist_transform :
    (∀ (stored : DF) (e : Row),
      (writtenOnAppend stored e).rows.length = (dfRaw stored).rows.length + 1) ∧
    (∀ (t : DF) (c : String) (i : Nat) (r : Row),
      c ∈ textCols → t.cols.contains c = true → t.rows.get? i = some r →
      c ∈ rowCols r → Row.get r c = Value.na →
      ∃ rr, (fixRawTypes t).rows.get? i = some rr ∧ Row.get rr c = Value.str "N/A") ∧
    (∀ (t : DF) (c : String), c ∈ textCols → t.cols.contains c = true →
      (∀ r ∈ t.rows, c ∈ rowCols r) →
      (dfRaw t).rows.length = t.rows.length) ∧
    (∀ t : DF, (∀ c ∈ textCols, t.cols.contains c = false) →
      (dfRaw t).rows.length = (t.rows.filter (fun r => !(allNA r))).length) := by
  have hnd : textCols.Nodup := by decide
  have hfix : ∀ t : DF, fixRawTypes t = ⟨t.cols, t.rows.map (rowStageFold textCols t.cols fillV)⟩ :=
    fun t => stageFold_spec textCols fillV t
  refine ⟨?_, ?_, ?_, ?_⟩
  · intro stored e
    simp [writtenOnAppend, concatDF]
  · intro t c i r hct hcol hi hrow hna
    refine ⟨rowStageFold textCols t.cols fillV r, ?_, ?_⟩
    · rw [hfix t]
      show (t.rows.map (rowStageFold textCols t.cols fillV)).get? i = some _
      rw [List.get?_map, hi]
      rfl
    · rw [get_rowStageFold_self textCols t.cols fillV c r hnd hct hcol hrow, hna]
      rfl
  · intro t c hct hcol hall
    have hkeep : ∀ rr ∈ (stripCols (fixRawTypes t)).rows, (!(allNA rr)) = true := by
      intro rr hrr
      rw [hfix t] at hrr
      simp only [stripCols, List.map_map, List.mem_map] at hrr
      obtain ⟨r, hr, hrr⟩ := hrr
      have h1 : Row.get (rowStageFold textCols t.cols fillV r) c
          = fillV (Row.get r c) :=
        get_rowStageFold_self textCols t.cols fillV c r hnd hct hcol (hall r hr)
      have h2 : allNA (rowStageFold textCols t.cols fillV r) = false := by
        apply allNA_false_of_get _ c
        · rw [rowCols_rowStageFold]
          exact hall r hr
        · rw [h1]
          cases Row.get r c <;> simp [fillV]
      rw [← hrr]
      show (!(allNA (stripRow (rowStageFold textCols t.cols fillV r)))) = true
      rw [allNA_stripRow, h2]
      rfl
    show ((stripCols (fixRawTypes t)).rows.filter (fun r => !(allNA r))).length = t.rows.length
    rw [filter_all_true _ _ hkeep, hfix t]
    simp [stripCols]
  · intro t h
    have hid : (fixRawTypes t).rows = t.rows := by
      rw [hfix t]
      exact map_id_on t.rows _ (fun r _ => rowStageFold_id textCols t.cols fillV r h)
    show ((stripCols (fixRawTypes t)).rows.filter (fun r => !(allNA r))).length
        = (t.rows.filter (fun r => !(allNA r))).length
    have hrows : (stripCols (fixRawTypes t)).rows = t.rows.map stripRow := by
      show (fixRawTypes t).rows.map stripRow = t.rows.map stripRow
      rw [hid]
    rw [hrows, filter_map_comm]
    rw [List.length_map]
    have hpred : (fun r => !(allNA (stripRow r))) = (fun r : Row => !(allNA r)) :=
      funext (fun r => by rw [allNA_stripRow])
    rw [hpred]

/-! ### Stable-sort lemmas for `sort_values` -/

theorem insRowK_ne_nil (key : Row → Int) (x : Row) (l : List Row) :
    insRowK key x l ≠ [] := by
  cases l with
  | nil => simp [insRowK]
  | cons y ys =>
    by_cases h : key y ≤ key x <;> simp [insRowK, h]

theorem insRowK_perm (key : Row → Int) (x : Row) (l : List Row) :
    List.Perm (insRowK key x l) (x :: l) := by
  induction l with
  | nil => exact List.Perm.refl _
  | cons y ys ih =>
    show List.Perm (if key y ≤ key x then y :: insRowK key x ys else x :: y :: ys) (x :: y :: ys)
    by_cases h : key y ≤ key x
    · rw [if_pos h]
      exact ((ih.cons y).trans (List.Perm.swap x y ys))
    · rw [if_neg h]

theorem foldl_ins_perm (key : Row → Int) (l acc : List Row) :
    List.Perm (l.foldl (fun acc x => insRowK key x acc) acc) (l ++ acc) := by
  induction l generalizing acc with
  | nil => exact List.Perm.refl _
  | cons x t ih =>
    show List.Perm (t.foldl (fun acc x => insRowK key x acc) (insRowK key x acc)) (x :: (t ++ acc))
    exact (ih (insRowK key x acc)).trans
      ((List.Perm.append_left t (insRowK_perm key x acc)).trans List.perm_middle)

theorem sortAscK_perm (key : Row → Int) (l : List Row) : List.Perm (sortAscK key l) l := by
  have h := foldl_ins_perm key l []
  rw [List.append_nil] at h
  exact h

theorem insRowK_sorted (key : Row → Int) (x : Row) (l : List Row)
    (h : List.Pairwise (fun a b => key a ≤ key b) l) :
    List.Pairwise (fun a b => key a ≤ key b) (insRowK key x l) := by
  induction l with
  | nil => simp [insRowK]
  | cons y ys ih =>
    rw [List.pairwise_cons] at h
    show List.Pairwise _ (if key y ≤ key x then y :: insRowK key x ys else x :: y :: ys)
    by_cases hxy : key y ≤ key x
    · rw [if_pos hxy, List.pairwise_cons]
      refine ⟨?_, ih h.2⟩
      intro z hz
      have hz2 : z ∈ x :: ys := (insRowK_perm key x ys).mem_iff.mp hz
      rcases List.mem_cons.mp hz2 with he | hz3
      · rw [he]
        exact hxy
      · exact h.1 z hz3
    · rw [if_neg hxy, List.pairwise_cons]
      have hlt : key x < key y := by omega
      refine ⟨?_, List.pairwise_cons.mpr h⟩
      intro z hz
      rcases List.mem_cons.mp hz with he | hz2
      · rw [he]
        exact le_of_lt hlt
      · exact le_trans (le_of_lt hlt) (h.1 z hz2)

theorem sortAscK_sorted (key : Row → Int) (l : List Row) :
    List.Pairwise (fun a b => key a ≤ key b) (sortAscK key l) := by
  have hgen : ∀ (l acc : List Row), List.Pairwise (fun a b => key a ≤ key b) acc →
      List.Pairwise (fun a b => key a ≤ key b)
        (l.foldl (fun acc x => insRowK key x acc) acc) := by
    intro l
    induction l with
    | nil => intro acc h; exact h
    | cons x t ih =>
      intro acc h
      exact ih (insRowK key x acc) (insRowK_sorted key x acc h)
  exact hgen l [] (List.Pairwise.nil)

theorem getLast?_cons_ne_nil {α : Type} (a : α) (t : List α) (h : t ≠ []) :
    (a :: t).getLast? = t.getLast? := by
  cases t with
  | nil => exact absurd rfl h
  | cons b t2 => exact List.getLast?_cons_cons

theorem mem_of_getLast?_own {α : Type} (l : List α) (a : α) (h : l.getLast? = some a) :
    a ∈ l := by
  induction l with
  | nil => cases h
  | cons b t ih =>
    cases t with
    | nil =>
      simp [List.getLast?] at h
      rw [h]
      exact List.mem_cons_self _ _
    | cons c t2 =>
      rw [List.getLast?_cons_cons] at h
      exact List.mem_cons_of_mem _ (ih h)

theorem getLast?_insRowK (key : Row → Int) (x : Row) (l : List Row)
    (hs : List.Pairwise (fun a b => key a ≤ key b) l) :
    (insRowK key x l).getLast?
      = match l.getLast? with
        | none => some x
        | some y => some (if key y ≤ key x then x else y) := by
  induction l with
  | nil => rfl
  | cons y ys ih =>
    rw [List.pairwise_cons] at hs
    show (if key y ≤ key x then y :: insRowK key x ys else x :: y :: ys).getLast? = _
    by_cases hle : key y ≤ key x
    · rw [if_pos hle]
      rw [getLast?_cons_ne_nil y _ (insRowK_ne_nil key x ys)]
      cases ys with
      | nil =>
        simp [insRowK, List.getLast?, hle]
      | cons z zs =>
        rw [ih hs.2]
        rw [List.getLast?_cons_cons]
    · rw [if_neg hle]
      rw [getLast?_cons_ne_nil x (y :: ys) (by simp)]
      cases hw : (y :: ys).getLast? with
      | none => cases (by simp [List.getLast?] at hw : False)
      | some w =>
        have hyw : key y ≤ key w := by
          have hmem := mem_of_getLast?_own (y :: ys) w hw
          rcases List.mem_cons.mp hmem with hmem | hmem
          · exact le_of_eq (congrArg key hmem.symm)
          · exact hs.1 w hmem
        have hwx : ¬ key w ≤ key x := by omega
        rw [show (match some w with
            | none => some x
            | some y => some (if key y ≤ key x then x else y))
            = some (if key w ≤ key x then x else w) from rfl]
        rw [if_neg hwx]

theorem sortAscK_snoc (key : Row → Int) (l : List Row) (a : Row) :
    sortAscK key (l ++ [a]) = insRowK key a (sortAscK key l) := by
  simp [sortAscK, List.foldl_append]

/-- The head of the modelled descending sort: a maximal-key row, and the
last such row in original order (everything after it in the original
list has strictly smaller key). -/
theorem sortDesc_head_spec (key : Row → Int) (l : List Row) :
    l = [] ∨
    ∃ r l₁ l₂, (sortDescK key l).head? = some r ∧ l = l₁ ++ r :: l₂ ∧
      (∀ x ∈ l, key x ≤ key r) ∧ (∀ x ∈ l₂, key x < key r) := by
  have hmain : l = [] ∨
      ∃ r l₁ l₂, (sortAscK key l).getLast? = some r ∧ l = l₁ ++ r :: l₂ ∧
        (∀ x ∈ l, key x ≤ key r) ∧ (∀ x ∈ l₂, key x < key r) := by
    induction l using List.reverseRecOn with
    | nil => exact Or.inl rfl
    | append_singleton l a ih =>
      right
      rcases ih with hnil | ⟨r, l₁, l₂, hlast, hsplit, hmax, hlt⟩
      · subst hnil
        refine ⟨a, [], [], ?_, rfl, ?_, ?_⟩
        · rfl
        · intro x hx
          have hxa : x = a := by simpa using hx
          exact le_of_eq (congrArg key hxa)
        · intro x hx
          simp at hx
      · rw [sortAscK_snoc key l a,
          getLast?_insRowK key a (sortAscK key l) (sortAscK_sorted key l), hlast]
        rw [show (match some r with
            | none => some a
            | some y => some (if key y ≤ key a then a else y))
            = some (if key r ≤ key a then a else r) from rfl]
        by_cases hra : key r ≤ key a
        · rw [if_pos hra]
          refine ⟨a, l, [], rfl, rfl, ?_, ?_⟩
          · intro x hx
            rcases List.mem_append.mp hx with hx | hx
            · exact le_trans (hmax x hx) hra
            · have hxa : x = a := by simpa using hx
              exact le_of_eq (congrArg key hxa)
          · intro x hx
            simp at hx
        · rw [if_neg hra]
          refine ⟨r, l₁, l₂ ++ [a], rfl, ?_, ?_, ?_⟩
          · rw [hsplit]
            simp
          · intro x hx
            rcases List.mem_append.mp hx with hx | hx
            · exact hmax x hx
            · have hxa : x = a := by simpa using hx
              rw [hxa]
              omega
          · intro x hx
            rcases List.mem_append.mp hx with hx | hx
            · exact hlt x hx
            · have hxa : x = a := by simpa using hx
              rw [hxa]
              omega
  rcases hmain with h | ⟨r, l₁, l₂, hlast, hsplit, hmax, hlt⟩
  · exact Or.inl h
  · right
    refine ⟨r, l₁, l₂, ?_, hsplit, hmax, hlt⟩
    rw [sortDescK, List.head?_reverse]
    exact hlast

/-- C5 witness: the write-path laws evaluated on the concrete blank-row
table (a text column present: the blank row survives, "N/A"-filled) and
on a table without any text column (the blank row is dropped). -/
theorem c5_write_paths_witness :
    (writtenOnAppend c5stored c5e).rows.length = (dfRaw c5stored).rows.length + 1 ∧
    (∃ rr, (fixRawTypes c5stored).rows.get? 1 = some rr ∧
      Row.get rr "Cardio Type" = Value.str "N/A") ∧
    (dfRaw c5stored).rows.length = c5stored.rows.length ∧
    (dfRaw c5b).rows.length = (c5b.rows.filter (fun r => !(allNA r))).length :=
  ⟨c5_write_paths_persist_transform.1 c5stored c5e,
   c5_write_paths_persist_transform.2.1 c5stored "Cardio Type" 1
     [("Date", Value.na), ("Pullups", Value.na), ("Cardio Type", Value.na)]
     (by decide) (by decide) (by decide) (by decide) (by decide),
   c5_write_paths_persist_transform.2.2.1 c5stored "Cardio Type"
     (by decide) (by decide) (by decide),
   c5_write_paths_persist_transform.2.2.2 c5b (by decide)⟩

/-! ### C6: behavior on absent columns -/

/-- C6 (amended): only the lifetime helpers degrade gracefully when a
declared column is absent — `get_sum`, `get_count` and
`get_cardio_sessions` return 0 — while the §4.2 operations with
unguarded column accesses raise `KeyError`: the period totals (when
e.g. `Squats` is missing), every trend series whose metric column is
missing, and the latest-entry banner when `Comments` is missing. -/
theorem c6_missing_column_behavior :
    (∀ (df : DF) (c : String), df.cols.contains c = false → getSum df c = 0) ∧
    (∀ (df : DF) (c : String), df.cols.contains c = false → getCount df c = 0) ∧
    (∀ df : DF, df.cols.contains "Cardio Type" = false → getCardioSessions df = 0) ∧
    (∀ df : DF, df.cols.contains "Pullups" = true → df.cols.contains "Squats" = false →
      periodTotalsE df = .error "KeyError: Squats") ∧
    (∀ (df : DF) (m : String), df.cols.contains m = false →
      trendSeriesE df m = .error ("KeyError: " ++ m)) ∧
    (∀ adf : DF, adf.cols.contains "Cardio Min/Reps" = false →
      activityTotalsE adf = .error "KeyError: Cardio Min/Reps") ∧
    (∀ df : DF, df.rows ≠ [] → df.cols.contains "Date_Only" = true →
      (∀ r ∈ df.rows, (Row.get r "Date_Only").isDate = true) →
      df.cols.contains "Comments" = false →
      commentBanner df = .error "KeyError: Comments") := by
  refine ⟨?_, ?_, ?_, ?_, ?_, ?_, ?_⟩
  · intro df c h
    have hm : c ∉ df.cols := by simpa using h
    simp [getSum, hm]
  · intro df c h
    have hm : c ∉ df.cols := by simpa using h
    simp [getCount, hm]
  · intro df h
    have hm : "Cardio Type" ∉ df.cols := by simpa using h
    simp [getCardioSessions, hm]
  · intro df hp hs
    have hpm : "Pullups" ∈ df.cols := by simpa using hp
    have hsm : "Squats" ∉ df.cols := by simpa using hs
    have h1 : colSumE df "Pullups"
        = .ok (pyInt (sumF (df.rows.map (fun r => vnum (Row.get r "Pullups"))))) := by
      simp [colSumE, hpm]
    have h2 : colSumE df "Squats" = .error "KeyError: Squats" := by
      simp [colSumE, hsm]
    unfold periodTotalsE
    rw [h1, h2]
  · intro df m h
    have hm : m ∉ df.cols := by simpa using h
    simp [trendSeriesE, hm]
  · intro adf h
    have hm : "Cardio Min/Reps" ∉ adf.cols := by simpa using h
    have h1 : colSumE adf "Cardio Min/Reps" = .error ("KeyError: " ++ "Cardio Min/Reps") := by
      simp [colSumE, hm]
    show (colSumE adf "Cardio Min/Reps").bind _ = _
    rw [h1]
    rfl
  · intro df hne hdo hdate hcm
    rcases sortDesc_head_spec rowKeyD df.rows with hemp | ⟨r, l1, l2, hhead, hsplit, hmax, hlt⟩
    · exact absurd hemp hne
    · have hmem : r ∈ df.rows := by
        rw [hsplit]
        exact List.mem_append.mpr (Or.inr (List.mem_cons_self _ _))
      have hlat : latestEntryRow df = .ok r := by
        unfold latestEntryRow
        rw [hhead]
      have hred : commentBanner df =
          (if df.cols.contains "Date_Only" then
            if (Row.get r "Date_Only").isDate then
              if df.cols.contains "Comments" then Except.ok (bannerOf r)
              else Except.error "KeyError: Comments"
            else Except.error "AttributeError: strftime"
          else Except.error "KeyError: Date_Only") := by
        unfold commentBanner
        rw [hlat]
      rw [hred, if_pos hdo, if_pos (hdate r hmem),
        if_neg (show ¬ df.cols.contains "Comments" = true by rw [hcm]; exact Bool.false_ne_true)]

/-- C6 witness: the laws evaluated on the concrete normalized table
missing `Squats` and `Comments`-free variants. -/
theorem c6_missing_column_witness :
    getSum c6df "Squats" = 0 ∧
    getCount c6df "Abs" = 0 ∧
    getCardioSessions c6df = 0 ∧
    periodTotalsE c6df = .error "KeyError: Squats" ∧
    trendSeriesE c6df "Weight" = .error ("KeyError: " ++ "Weight") ∧
    activityTotalsE c6df = .error "KeyError: Cardio Min/Reps" ∧
    commentBanner c6df = .error "KeyError: Comments" :=
  ⟨c6_missing_column_behavior.1 c6df "Squats" (by decide),
   c6_missing_column_behavior.2.1 c6df "Abs" (by decide),
   c6_missing_column_behavior.2.2.1 c6df (by decide),
   c6_missing_column_behavior.2.2.2.1 c6df (by decide) (by decide),
   c6_missing_column_behavior.2.2.2.2.1 c6df "Weight" (by decide),
   c6_missing_column_behavior.2.2.2.2.2.1 c6df (by decide),
   c6_missing_column_behavior.2.2.2.2.2.2 c6df (by decide) (by decide) (by decide) (by decide)⟩

/-! ### C7: the latest entry and its banner -/

/-- C7 (amended): for every non-empty table (with `Date_Only` and
`Comments` columns present and date-valued `Date_Only` cells, as
normalization guarantees), `latest_entry` returns a row of maximal
`Date` key, and among rows tying on that maximum it is the last one in
original sheet order (every row after it has a strictly smaller key);
its comment is surfaced as a banner exactly when the comment is truthy
(non-empty) AND differs from the placeholder "N/A" — not merely when it
differs from "N/A" as the original claim stated. -/
theorem c7_latest_entry (df : DF) (hne : df.rows ≠ [])
    (hdo : df.cols.contains "Date_Only" = true)
    (hcm : df.cols.contains "Comments" = true)
    (hdate : ∀ r ∈ df.rows, (Row.get r "Date_Only").isDate = true) :
    ∃ r l₁ l₂,
      latestEntryRow df = .ok r ∧
      df.rows = l₁ ++ r :: l₂ ∧
      (∀ x ∈ df.rows, rowKeyD x ≤ rowKeyD r) ∧
      (∀ x ∈ l₂, rowKeyD x < rowKeyD r) ∧
      commentBanner df = .ok (bannerOf r) ∧
      ((bannerOf r).isSome = true ↔
        (pyTruthy (Row.get r "Comments") = true ∧
          Row.get r "Comments" ≠ Value.str "N/A")) := by
  rcases sortDesc_head_spec rowKeyD df.rows with hemp | ⟨r, l1, l2, hhead, hsplit, hmax, hlt⟩
  · exact absurd hemp hne
  have hmem : r ∈ df.rows := by
    rw [hsplit]
    exact List.mem_append.mpr (Or.inr (List.mem_cons_self _ _))
  have hlat : latestEntryRow df = .ok r := by
    unfold latestEntryRow
    rw [hhead]
  refine ⟨r, l1, l2, hlat, hsplit, hmax, hlt, ?_, ?_⟩
  · have hred : commentBanner df =
        (if df.cols.contains "Date_Only" then
          if (Row.get r "Date_Only").isDate then
            if df.cols.contains "Comments" then Except.ok (bannerOf r)
            else Except.error "KeyError: Comments"
          else Except.error "AttributeError: strftime"
        else Except.error "KeyError: Date_Only") := by
      unfold commentBanner
      rw [hlat]
    rw [hred, if_pos hdo, if_pos (hdate r hmem), if_pos hcm]
  · unfold bannerOf
    by_cases hb : (pyTruthy (Row.get r "Comments")
        && !(Row.get r "Comments" == Value.str "N/A")) = true
    · rw [if_pos hb]
      rw [Bool.and_eq_true] at hb
      refine ⟨fun _ => ⟨hb.1, fun he => ?_⟩, fun _ => rfl⟩
      rw [he] at hb
      simp at hb
    · rw [if_neg hb]
      refine ⟨fun hcon => absurd hcon (by decide), fun hcon => ?_⟩
      exfalso
      apply hb
      rw [Bool.and_eq_true]
      refine ⟨hcon.1, ?_⟩
      simp [hcon.2]

/-- C7 witness: the amended latest-entry contract evaluated on a
concrete table with a tie on the maximum date — the last tying row in
sheet order is picked and its non-placeholder comment is surfaced. -/
theorem c7_latest_entry_witness :
    ∃ r l₁ l₂,
      latestEntryRow c7wdf = .ok r ∧
      c7wdf.rows = l₁ ++ r :: l₂ ∧
      (∀ x ∈ c7wdf.rows, rowKeyD x ≤ rowKeyD r) ∧
      (∀ x ∈ l₂, rowKeyD x < rowKeyD r) ∧
      commentBanner c7wdf = .ok (bannerOf r) ∧
      ((bannerOf r).isSome = true ↔
        (pyTruthy (Row.get r "Comments") = true ∧
          Row.get r "Comments" ≠ Value.str "N/A")) :=
  c7_latest_entry c7wdf (by decide) (by decide) (by decide) (by decide)

/-! ### C8: trend series content and order -/

/-- C8 (amended): for every filtered subset and metric column present,
the trend series consists of exactly the subset's rows with metric value
strictly positive (so no returned point has value ≤ 0), kept in the
subset's original row order — the source applies no sort, so the series
is ordered by date ascending only when the subset already is (order is
preserved under the filter). -/
theorem c8_trend_series (df : DF) (m : String) (hm : df.cols.contains m = true) :
    trendSeriesE df m = .ok (df.rows.filter (fun r => vPos (Row.get r m))) ∧
    (∀ r ∈ df.rows.filter (fun r => vPos (Row.get r m)),
      ∃ f : Frac, Row.get r m = Value.num f ∧ 0 < f.n) ∧
    (List.Pairwise (fun a b => rowKeyDO a ≤ rowKeyDO b) df.rows →
      List.Pairwise (fun a b => rowKeyDO a ≤ rowKeyDO b)
        (df.rows.filter (fun r => vPos (Row.get r m)))) := by
  refine ⟨?_, ?_, ?_⟩
  · have hmm : m ∈ df.cols := by simpa using hm
    simp [trendSeriesE, hmm]
  · intro r hr
    have h2 := (List.mem_filter.mp hr).2
    cases hv : Row.get r m with
    | num f =>
      refine ⟨f, rfl, ?_⟩
      rw [hv] at h2
      simpa [vPos, Frac.pos] using h2
    | na => rw [hv] at h2; simp [vPos] at h2
    | str s => rw [hv] at h2; simp [vPos] at h2
    | bool b => rw [hv] at h2; simp [vPos] at h2
    | date y mo d => rw [hv] at h2; simp [vPos] at h2
  · intro hp
    exact List.Pairwise.sublist (List.filter_sublist _) hp

/-- C8 witness: the amended trend-series contract evaluated on the
concrete out-of-order chart subset. -/
theorem c8_trend_series_witness :
    trendSeriesE c8df "Weight" = .ok (c8df.rows.filter (fun r => vPos (Row.get r "Weight"))) ∧
    (∀ r ∈ c8df.rows.filter (fun r => vPos (Row.get r "Weight")),
      ∃ f : Frac, Row.get r "Weight" = Value.num f ∧ 0 < f.n) ∧
    (List.Pairwise (fun a b => rowKeyDO a ≤ rowKeyDO b) c8df.rows →
      List.Pairwise (fun a b => rowKeyDO a ≤ rowKeyDO b)
        (c8df.rows.filter (fun r => vPos (Row.get r "Weight")))) :=
  c8_trend_series c8df "Weight" (by decide)

/-! ### C9: the date-drop law -/

theorem get_eq_na_of_not_mem (r : Row) (c : String) (h : c ∉ rowCols r) :
    Row.get r c = Value.na := by
  induction r with
  | nil => rfl
  | cons p r ih =>
    obtain ⟨k, v⟩ := p
    simp only [rowCols, List.map_cons, List.mem_cons, not_or] at h
    rw [get_cons_ne k c v r (fun he => h.1 he.symm)]
    apply ih
    simpa [rowCols] using h.2

theorem get_stampDate (r : Row) :
    Row.get (rowMapCol "Date" dateCoerceV r) "Date" = dateCoerceV (Row.get r "Date") := by
  by_cases hm : "Date" ∈ rowCols r
  · exact get_rowMapCol_self "Date" dateCoerceV r hm
  · have h2 : "Date" ∉ rowCols (rowMapCol "Date" dateCoerceV r) := by
      rw [rowCols_rowMapCol]
      exact hm
    rw [get_eq_na_of_not_mem _ "Date" h2, get_eq_na_of_not_mem r "Date" hm]
    rfl

theorem stamp_pred_eq (r : Row) :
    (!(Row.get (rowMapCol "Date" dateCoerceV r) "Date" == Value.na)) = parsableRow r := by
  rw [get_stampDate]
  unfold dateCoerceV parsableRow
  cases hp : parseDate (strTrim (pyStr (Row.get r "Date"))) with
  | none => rfl
  | some p =>
    obtain ⟨y, md⟩ := p
    obtain ⟨mo, d⟩ := md
    rfl

/-- C9: every row whose trimmed date text fails to parse is dropped by
normalization, every retained row carries the parsed date of its own
trimmed source text in both `Date` and `Date_Only`, every retained row
has a valid (constructor-level) parsed date, and the downstream subsets
(range filter, trend filter) are sublists of the normalized rows, hence
contain no dropped row. -/
theorem c9_date_drop_law (raw df : DF) (h : normalizeDF raw = .ok df) :
    df.rows.map (fun r => Row.get r "Date")
        = (raw.rows.filter parsableRow).map stampVal ∧
    df.rows.map (fun r => Row.get r "Date_Only")
        = (raw.rows.filter parsableRow).map stampVal ∧
    (∀ r ∈ df.rows, ∃ y mo d, Row.get r "Date" = Value.date y mo d) ∧
    (∀ lo hi sub, rangeFilterE df lo hi = .ok sub → sub.rows.Sublist df.rows) ∧
    (∀ m sub, trendSeriesE df m = .ok sub → sub.Sublist df.rows) := by
  unfold normalizeDF at h
  by_cases hc : raw.cols.contains "Date" = true
  case neg =>
    rw [if_neg hc] at h
    cases h
  rw [if_pos hc] at h
  injection h with h
  have hA : ∀ X : DF,
      boolCols.foldl (fun t c => mapColIf t c boolV)
        (numCols.foldl (fun t c => mapColIf t c toNumericV) X)
      = ⟨X.cols, (X.rows.map (rowStageFold numCols X.cols toNumericV)).map
          (rowStageFold boolCols X.cols boolV)⟩ := by
    intro X
    rw [stageFold_spec numCols toNumericV X]
    exact stageFold_spec boolCols boolV ⟨X.cols, X.rows.map (rowStageFold numCols X.cols toNumericV)⟩
  rw [hA] at h
  have hdrows : df.rows
      = (((addDateOnly
            ⟨raw.cols,
             (raw.rows.map (rowMapCol "Date" dateCoerceV)).filter
               (fun r => !(Row.get r "Date" == Value.na))⟩).rows.map
          (rowStageFold numCols
            (addDateOnly
              ⟨raw.cols,
               (raw.rows.map (rowMapCol "Date" dateCoerceV)).filter
                 (fun r => !(Row.get r "Date" == Value.na))⟩).cols toNumericV)).map
          (rowStageFold boolCols
            (addDateOnly
              ⟨raw.cols,
               (raw.rows.map (rowMapCol "Date" dateCoerceV)).filter
                 (fun r => !(Row.get r "Date" == Value.na))⟩).cols boolV)) := by
    rw [← h]
  -- abbreviations for the stage pieces
  have hfilter : (raw.rows.map (rowMapCol "Date" dateCoerceV)).filter
        (fun r => !(Row.get r "Date" == Value.na))
      = (raw.rows.filter parsableRow).map (rowMapCol "Date" dateCoerceV) := by
    rw [filter_map_comm raw.rows (rowMapCol "Date" dateCoerceV)
      (fun r => !(Row.get r "Date" == Value.na))]
    have hp : (fun x => !(Row.get (rowMapCol "Date" dateCoerceV x) "Date" == Value.na))
        = parsableRow := funext (fun x => stamp_pred_eq x)
    rw [hp]
  have hDateMap : df.rows.map (fun r => Row.get r "Date")
      = (raw.rows.filter parsableRow).map stampVal := by
    rw [hdrows]
    rw [List.map_map, List.map_map]
    show ((addDateOnly ⟨raw.cols, _⟩).rows).map _ = _
    rw [addDateOnly]
    rw [List.map_map]
    rw [hfilter, List.map_map]
    apply List.map_congr_left
    intro x _
    show Row.get (rowStageFold boolCols _ boolV
        (rowStageFold numCols _ toNumericV
          (rowSetCol (rowMapCol "Date" dateCoerceV x) "Date_Only"
            (Row.get (rowMapCol "Date" dateCoerceV x) "Date")))) "Date" = stampVal x
    rw [get_rowStageFold_notmem boolCols _ boolV "Date" _ (by decide)]
    rw [get_rowStageFold_notmem numCols _ toNumericV "Date" _ (by decide)]
    rw [get_rowSetCol_other _ "Date_Only" "Date" _ (by decide)]
    exact get_stampDate x
  have hDOMap : df.rows.map (fun r => Row.get r "Date_Only")
      = (raw.rows.filter parsableRow).map stampVal := by
    rw [hdrows]
    rw [List.map_map, List.map_map]
    show ((addDateOnly ⟨raw.cols, _⟩).rows).map _ = _
    rw [addDateOnly]
    rw [List.map_map]
    rw [hfilter, List.map_map]
    apply List.map_congr_left
    intro x _
    show Row.get (rowStageFold boolCols _ boolV
        (rowStageFold numCols _ toNumericV
          (rowSetCol (rowMapCol "Date" dateCoerceV x) "Date_Only"
            (Row.get (rowMapCol "Date" dateCoerceV x) "Date")))) "Date_Only" = stampVal x
    rw [get_rowStageFold_notmem boolCols _ boolV "Date_Only" _ (by decide)]
    rw [get_rowStageFold_notmem numCols _ toNumericV "Date_Only" _ (by decide)]
    rw [get_rowSetCol_self]
    exact get_stampDate x
  refine ⟨hDateMap, hDOMap, ?_, ?_, ?_⟩
  · intro r hr
    have hmem : Row.get r "Date" ∈ df.rows.map (fun r => Row.get r "Date") :=
      List.mem_map_of_mem _ hr
    rw [hDateMap] at hmem
    obtain ⟨x, hx, heq⟩ := List.mem_map.mp hmem
    have hpx : parsableRow x = true := (List.mem_filter.mp hx).2
    unfold parsableRow at hpx
    cases hp : parseDate (strTrim (pyStr (Row.get x "Date"))) with
    | none =>
      rw [hp] at hpx
      simp at hpx
    | some p =>
      obtain ⟨y, md⟩ := p
      obtain ⟨mo, d⟩ := md
      refine ⟨y, mo, d, ?_⟩
      rw [← heq]
      unfold stampVal dateCoerceV
      rw [hp]
  · intro lo hi sub hsub
    unfold rangeFilterE at hsub
    by_cases hdoc : df.cols.contains "Date_Only" = true
    · rw [if_pos hdoc] at hsub
      injection hsub with hsub
      rw [← hsub]
      exact List.filter_sublist _
    · rw [if_neg hdoc] at hsub
      cases hsub
  · intro m sub hsub
    unfold trendSeriesE at hsub
    by_cases hmc : df.cols.contains m = true
    · rw [if_pos hmc] at hsub
      injection hsub with hsub
      rw [← hsub]
      exact List.filter_sublist _
    · rw [if_neg hmc] at hsub
      cases hsub

/-- C9 witness: the date-drop law evaluated on a concrete raw table with
a padded parsable date, an empty date and a blank date (the latter two
rows are dropped). -/
theorem c9_date_drop_witness :
    normalizeDF c9raw = .ok c9df ∧
    (c9df.rows.map (fun r => Row.get r "Date")
        = (c9raw.rows.filter parsableRow).map stampVal ∧
     c9df.rows.map (fun r => Row.get r "Date_Only")
        = (c9raw.rows.filter parsableRow).map stampVal ∧
     (∀ r ∈ c9df.rows, ∃ y mo d, Row.get r "Date" = Value.date y mo d) ∧
     (∀ lo hi sub, rangeFilterE c9df lo hi = .ok sub → sub.rows.Sublist c9df.rows) ∧
     (∀ m sub, trendSeriesE c9df m = .ok sub → sub.Sublist c9df.rows)) :=
  ⟨by decide, c9_date_drop_law c9raw c9df (by decide)⟩

/-! ### C10: no sheet I/O before the password gate -/

/-- C10: a run in which `check_password` returns false — no attempt yet,
or a failed attempt — performs no externally visible effect at all: the
sheet is never read, never written, and no data is rendered, because the
connection, the read, both write handlers and all rendering sit inside
`if check_password():`. -/
theorem c10_no_io_before_auth (s : SessState) (stored : DF) (view : TimeView)
    (selType : String) (lo hi today : Int) (submitted : Option Row)
    (deleteClicked : Bool) (h : check_password s = false) :
    scriptEffects s stored view selType lo hi today submitted deleteClicked = [] ∧
    Eff.sheetRead ∉ scriptEffects s stored view selType lo hi today submitted deleteClicked ∧
    (∀ t : DF, Eff.sheetWrite t
      ∉ scriptEffects s stored view selType lo hi today submitted deleteClicked) := by
  have h0 : scriptEffects s stored view selType lo hi today submitted deleteClicked = [] := by
    unfold scriptEffects
    rw [if_neg (by rw [h]; exact Bool.false_ne_true)]
  refine ⟨h0, ?_, ?_⟩
  · rw [h0]
    simp
  · intro t
    rw [h0]
    simp

/-- C10 witness: evaluated for a session state holding a failed attempt,
with a non-trivial stored table and both mutating actions requested. -/
theorem c10_no_io_witness :
    check_password ⟨some false⟩ = false ∧
    (scriptEffects ⟨some false⟩ c1good .fullHistory "All" 0 0 0 (some c4e1) true = [] ∧
     Eff.sheetRead ∉ scriptEffects ⟨some false⟩ c1good .fullHistory "All" 0 0 0 (some c4e1) true ∧
     (∀ t : DF, Eff.sheetWrite t
       ∉ scriptEffects ⟨some false⟩ c1good .fullHistory "All" 0 0 0 (some c4e1) true)) :=
  ⟨by decide,
   c10_no_io_before_auth ⟨some false⟩ c1good .fullHistory "All" 0 0 0 (some c4e1) true
     (by decide)⟩
